import Mathlib

set_option maxHeartbeats 1000000

namespace Ockam

/-! Shallow embedding of the ockam identity repository (sqlite/sqlx storage
layer) and of the secure-channel responder handshake state machine, together
with proofs about the claims of the specification. -/

/-- Modelled from the spec: `Identifier` (models module, absent from the
sources) is the stable, content-derived identifier of an identity (§3). Its
string rendering used by SQL TEXT columns (`Identifier::to_string` /
`Identifier::from_str`) is an injective encoding and `from_str` is its
inverse, so the embedding stores the identifier itself in the TEXT cell. -/
structure Identifier where
  value : Nat
deriving DecidableEq, Repr

/-- Attribute maps `BTreeMap<Vec<u8>, Vec<u8>>`, embedded as association
lists of byte sequences. -/
abbrev Attrs := List (List Nat × List Nat)

/-- Modelled from the spec: `AttributesEntry` (attributes storage module,
absent from the sources) as constructed and consumed by
`identities_repository_impl.rs`: an attribute map, an `added` timestamp in
seconds (u64), an optional expiry timestamp and an optional attesting
identifier. -/
structure AttributesEntry where
  attrs : Attrs
  added : Nat
  expires : Option Nat
  attested_by : Option Identifier
deriving DecidableEq, Repr

/-- Rust `x as i64` on a `u64` value: reinterpret the low 64 bits in
two's complement. Used by `impl ToSqlxType for u64` in `sqlx_types.rs`
(`SqlxType::Integer(*self as i64)`). -/
def u64_as_i64 (n : Nat) : Int :=
  if n % 2 ^ 64 < 2 ^ 63 then ((n % 2 ^ 64 : Nat) : Int)
  else ((n % 2 ^ 64 : Nat) : Int) - 2 ^ 64

/-- Rust `v as u64` on an `i64` value: reinterpret in two's complement.
Used by `IdentityAttributesRow::attributes` (`TimestampInSeconds(self.added
as u64)`). -/
def i64_as_u64 (v : Int) : Nat :=
  (v % 2 ^ 64).toNat

/-- Error kinds surfaced by the handshake core: `Kind::Invalid` from
`ockam_core::errcode` as used by `on_event`, and the verification error
taxonomy of §4.1/§7 (authentication, expiry, authorization). The error
message strings are elided. -/
inductive ErrKind where
  | Invalid
  | EmptyHistory
  | BrokenChain
  | InvalidSignature
  | Expired
  | UnknownIssuer
  | SubjectMismatch
  | AuthorizationFailed
deriving DecidableEq, Repr

/-- Row of the `identity_attributes` table as read back by sqlx
(`IdentityAttributesRow` in `identities_repository_impl.rs`). The TEXT
cells hold identifiers (see `Identifier`), the BLOB cell holds the
minicbor-serialized attribute map: minicbor is an external library whose
decode is the inverse of its encode, so the cell is embedded as holding the
map itself. `added` and `expires` are INTEGER (i64) cells. -/
structure IdentityAttributesRow where
  identifier : Identifier
  attributes : Attrs
  added : Int
  expires : Option Int
  attested_by : Option Identifier
deriving DecidableEq, Repr

/-- `IdentityAttributesRow::attributes` (`identities_repository_impl.rs`):
decode the cbor blob, convert `added` and `expires` with `as u64`, keep
`attested_by`, and rebuild an `AttributesEntry`. -/
def IdentityAttributesRow.attributesEntry (r : IdentityAttributesRow) : AttributesEntry :=
  { attrs := r.attributes
    added := i64_as_u64 r.added
    expires := r.expires.map i64_as_u64
    attested_by := r.attested_by }

/-- Modelled from the spec: `ChangeHistory` (models module, absent from the
sources) is an ordered sequence of signed change records, each establishing
or rotating a signing key (§3). The abstract-crypto field `sigOk` records
the verdict of verifying the record signature against the preceding key. -/
structure ChangeRecord where
  key : Nat
  sigOk : Bool
deriving DecidableEq, Repr

/-- Modelled from the spec: a change history is the ordered list of its
change records (§3). -/
structure ChangeHistory where
  records : List ChangeRecord
deriving DecidableEq, Repr

/-- Modelled from the spec: an `Identity` is a principal's identifier
together with its change history (§3); the identifier is recomputable from
the history's first entry. -/
structure Identity where
  identifier : Identifier
  change_history : ChangeHistory
deriving DecidableEq, Repr

/-- Row of the `identity` table (`IdentityRow` in
`identities_repository_impl.rs`): identifier TEXT, change_history BLOB
(holding the exported history), name TEXT (nullable: `store_identity`
inserts NULL), is_default BOOLEAN. -/
structure IdentityRow where
  identifier : Identifier
  change_history : ChangeHistory
  name : Option String
  is_default : Bool
deriving DecidableEq, Repr

/-- The two tables touched by `IdentitiesSqlxDatabase`, each a list of rows
in insertion order. -/
structure Db where
  identity : List IdentityRow
  identity_attributes : List IdentityAttributesRow
deriving DecidableEq, Repr

/-- `IdentitiesSqlxDatabase::store_identity`: `INSERT INTO identity VALUES
(?, ?, NULL, ?)` binding the identifier, the exported change history and
`false`. -/
def Db.store_identity (db : Db) (i : Identity) : Db :=
  { db with identity := db.identity ++ [⟨i.identifier, i.change_history, none, false⟩] }

/-- `IdentitiesSqlxDatabase::set_as_default`: first `UPDATE identity SET
is_default = true WHERE identifier = ?`, then `UPDATE identity SET
is_default = false WHERE identifier <> ?`. -/
def Db.set_as_default (db : Db) (identifier : Identifier) : Db :=
  let step1 := db.identity.map fun r =>
    if r.identifier = identifier then { r with is_default := true } else r
  let step2 := step1.map fun r =>
    if r.identifier ≠ identifier then { r with is_default := false } else r
  { db with identity := step2 }

/-- `IdentitiesSqlxDatabase::get_default_identifier`: `SELECT * FROM
identity WHERE is_default = true` fetched optionally (first matching row),
returning the row's identifier. -/
def Db.get_default_identifier (db : Db) : Option Identifier :=
  (db.identity.find? fun r => r.is_default).map fun r => r.identifier

/-- `INSERT OR REPLACE` keyed by `identifier`: sqlite deletes the
conflicting row and appends the new one. The schema migration files (.sql,
absent from the sources) make `identifier` the key of
`identity_attributes`, as `INSERT OR REPLACE INTO identity_attributes` in
`put_attributes` shows. -/
def insertOrReplace (row : IdentityAttributesRow) (rows : List IdentityAttributesRow) :
    List IdentityAttributesRow :=
  (rows.filter fun r => ¬ r.identifier = row.identifier) ++ [row]

/-- `IdentitiesSqlxDatabase::put_attributes`: `INSERT OR REPLACE INTO
identity_attributes VALUES (?, ?, ?, ?, ?)` binding the identifier, the
cbor-encoded attribute map, `added` via `u64 as i64`, and the optional
expiry (same conversion) and attesting identifier. -/
def Db.put_attributes (db : Db) (sender : Identifier) (entry : AttributesEntry) : Db :=
  let row : IdentityAttributesRow :=
    { identifier := sender
      attributes := entry.attrs
      added := u64_as_i64 entry.added
      expires := entry.expires.map u64_as_i64
      attested_by := entry.attested_by }
  { db with identity_attributes := insertOrReplace row db.identity_attributes }

/-- `IdentitiesSqlxDatabase::get_attributes`: `SELECT * FROM
identity_attributes WHERE identifier = ?` fetched optionally, then
`IdentityAttributesRow::attributes` on the row if any. -/
def Db.get_attributes (db : Db) (identity : Identifier) : Option AttributesEntry :=
  (db.identity_attributes.find? fun r => r.identifier = identity).map
    fun r => r.attributesEntry

/-- Which side started the handshake (`Role` in `ockam_identity`). -/
inductive Role where
  | Initiator
  | Responder
deriving DecidableEq, Repr

/-- Modelled from the spec: a `TrustContext` (absent from the sources)
supplies the authority identifiers credentials must chain to (§4.3). -/
structure TrustContext where
  authorities : List Identifier
deriving DecidableEq, Repr

/-- Modelled from the spec: a `Credential` (models module, absent from the
sources) is a signed attestation binding a subject identity to attributes,
issued by an authority, with an issuance time and optional expiry (§3).
The abstract-crypto field `sigOk` records the verdict of verifying the
credential signature against the issuer's current key material. -/
structure Credential where
  subject : Identifier
  issuer : Identifier
  attrs : Attrs
  issued : Nat
  expires : Option Nat
  sigOk : Bool
deriving DecidableEq, Repr

/-- Modelled from the spec: `verify_change_history` (absent from the
sources) verifies every signature in sequence against the preceding key and
returns the identity with its stable identifier, derived from the history's
first entry; partial or corrupt histories are rejected whole
(§3, §4.1). -/
def verify_change_history (history : ChangeHistory) : Except ErrKind Identity :=
  match history.records with
  | [] => .error ErrKind.EmptyHistory
  | r0 :: rest =>
      if (r0 :: rest).all (fun r => r.sigOk) then .ok ⟨⟨r0.key⟩, history⟩
      else .error ErrKind.BrokenChain

/-- Modelled from the spec: `verify_credential` (absent from the sources)
rejects credentials whose subject does not match the identity proven by the
handshake, then checks expiry against the handshake's notion of now, then
that the trust context accepts the issuer as authoritative (credentials
fail closed when there is no trust context), then the credential signature;
the cheap structural check short-circuits the expensive ones (§4.1, §4.2,
§4.3). -/
def verify_credential (credential : Credential) (subject : Identifier)
    (trust_context : Option TrustContext) (now : Nat) : Except ErrKind Attrs :=
  if credential.subject ≠ subject then .error ErrKind.SubjectMismatch
  else if (match credential.expires with | some e => decide (e < now) | none => false) then
    .error ErrKind.Expired
  else
    match trust_context with
    | none => .error ErrKind.UnknownIssuer
    | some tc =>
        if credential.issuer ∉ tc.authorities then .error ErrKind.UnknownIssuer
        else if ¬ credential.sigOk then .error ErrKind.InvalidSignature
        else .ok credential.attrs

/-- Modelled from the spec: each credential of the payload is verified
independently; any single failure fails the whole handshake with the first
verification error encountered (§4.1, §4.2). -/
def checkCredentials (credentials : List Credential) (subject : Identifier)
    (trust_context : Option TrustContext) (now : Nat) : Except ErrKind Unit :=
  match credentials with
  | [] => .ok ()
  | c :: rest =>
      match verify_credential c subject trust_context now with
      | .error e => .error e
      | .ok _ => checkCredentials rest subject trust_context now

/-- The authenticated payload carried inside handshake messages 2 and 3:
the sender's identity (its change history) plus zero or more credentials
(`IdentityAndCredentials` in `handshake_state_machine.rs`, absent from the
sources, described in §3). -/
structure IdentityAndCredentials where
  change_history : ChangeHistory
  credentials : List Credential
deriving DecidableEq, Repr

/-- Modelled from the spec: the wire format of handshake messages is out of
scope (§1); message bytes are embedded as either bytes that fail to decode
(malformed) or bytes that decode as the corresponding protocol message,
message 3 carrying its encrypted `IdentityAndCredentials` payload. -/
inductive Message where
  | malformed
  | msg1
  | msg2
  | msg3 (payload : IdentityAndCredentials)
deriving DecidableEq, Repr

/-- Events received by a state machine (`Event` in
`handshake_state_machine.rs`, absent from the sources). -/
inductive Event where
  | Initialize
  | ReceivedMessage (message : Message)
deriving DecidableEq, Repr

/-- Outcome of processing an event (`Action` in
`handshake_state_machine.rs`, absent from the sources). -/
inductive Action where
  | NoAction
  | SendMessage (message : Message)
deriving DecidableEq, Repr

/-- The terminal artifact: two directional encryption keys, the verified
peer identity and the role this side played (`FinalHandshakeState` in
`handshake_state.rs`, absent from the sources, described in §3). -/
structure FinalHandshakeState where
  encryption_key : Nat
  decryption_key : Nat
  their_identity : Identity
  role : Role
deriving DecidableEq, Repr

/-- Responder-side statuses (`Status` in `handshake_state.rs`, absent from
the sources): the terminal status carries the final handshake state, which
is how `get_final_state` can retrieve it only once `Done` is reached
(§4.4). -/
inductive Status where
  | Initial
  | WaitingForMessage1
  | WaitingForMessage3
  | Done (final : FinalHandshakeState)
deriving DecidableEq, Repr

/-- Progress of the handshake engine's key-schedule state, spec-modelled:
message bytes must be processed in strict order 1→2→3, so the engine tracks
how far the schedule has evolved (§4.2). -/
inductive EngineStep where
  | created
  | initialized
  | receivedM1
  | sentM2
  | receivedM3
deriving DecidableEq, Repr

/-- Modelled from the spec: the mutable, single-use handshake state
(`HandshakeState` in `handshake_state.rs`, absent from the sources): the
current status, the key-schedule progress, the derived directional keys
`k1`/`k2`, and the trust policy, optional trust context and handshake time
supplied at construction (§3, §6). `policyChecks` is ghost instrumentation
counting how often the trust policy has been consulted. -/
structure HandshakeState where
  status : Status
  step : EngineStep
  k1 : Nat
  k2 : Nat
  trust_policy : Identity → Bool
  trust_context : Option TrustContext
  now : Nat
  policyChecks : Nat

/-- Modelled from the spec: `Handshake::initialize` sets up the initial
symmetric state from protocol constants and must be called exactly once per
attempt (§4.2). -/
def initialize_handshake (h : HandshakeState) : Except ErrKind HandshakeState :=
  if h.step = EngineStep.created then .ok { h with step := EngineStep.initialized }
  else .error ErrKind.Invalid

/-- Modelled from the spec: `Handshake::decode_message1` consumes the
ephemeral-key message; malformed bytes are a hard abort, and decoding out
of order or twice is an `Invalid` protocol error (§4.2). -/
def decode_message1 (h : HandshakeState) (message : Message) : Except ErrKind HandshakeState :=
  if h.step ≠ EngineStep.initialized then .error ErrKind.Invalid
  else
    match message with
    | Message.msg1 => .ok { h with step := EngineStep.receivedM1 }
    | _ => .error ErrKind.Invalid

/-- Modelled from the spec: `Handshake::encode_message2` mixes in the
responder's keys and produces message 2, evolving the key schedule
(§4.2). -/
def encode_message2 (h : HandshakeState) : Except ErrKind (HandshakeState × Message) :=
  if h.step = EngineStep.receivedM1 then .ok ({ h with step := EngineStep.sentM2 }, Message.msg2)
  else .error ErrKind.Invalid

/-- Modelled from the spec: `Handshake::decode_message3` decrypts the
initiator's `IdentityAndCredentials`; malformed bytes are a hard abort, and
decoding out of order or twice is an `Invalid` protocol error (§4.2). -/
def decode_message3 (h : HandshakeState) (message : Message) :
    Except ErrKind (HandshakeState × IdentityAndCredentials) :=
  if h.step ≠ EngineStep.sentM2 then .error ErrKind.Invalid
  else
    match message with
    | Message.msg3 payload => .ok ({ h with step := EngineStep.receivedM3 }, payload)
    | _ => .error ErrKind.Invalid

/-- Modelled from the spec: `Handshake::verify_identity` validates the
change history, then each credential, then calls the trust policy,
returning the authenticated peer identity or the first verification error
encountered (§4.2, §4.3). The boolean records whether the trust policy was
consulted. -/
def verify_identity_instr (h : HandshakeState) (payload : IdentityAndCredentials) :
    Except ErrKind Identity × Bool :=
  match verify_change_history payload.change_history with
  | .error e => (.error e, false)
  | .ok their_identity =>
      match checkCredentials payload.credentials their_identity.identifier
          h.trust_context h.now with
      | .error e => (.error e, false)
      | .ok _ =>
          if h.trust_policy their_identity then (.ok their_identity, true)
          else (.error ErrKind.AuthorizationFailed, true)

/-- `Handshake::verify_identity` without the ghost instrumentation. -/
def verify_identity (h : HandshakeState) (payload : IdentityAndCredentials) :
    Except ErrKind Identity :=
  (verify_identity_instr h payload).1

/-- Modelled from the spec: `Handshake::set_final_state` derives the two
directional encryption keys from the final symmetric state and packages the
terminal artifact (§4.2); per the responder state table the machine is then
in the terminal `Done` state with the final state retrievable (§4.4). -/
def set_final_state (h : HandshakeState) (their_identity : Identity) (role : Role) :
    Except ErrKind HandshakeState :=
  let final : FinalHandshakeState :=
    match role with
    | Role.Initiator => ⟨h.k1, h.k2, their_identity, role⟩
    | Role.Responder => ⟨h.k2, h.k1, their_identity, role⟩
  .ok { h with status := Status.Done final }

/-- Modelled from the spec: `Handshake::get_final_state` returns the
terminal artifact only once `Done` has been reached and `None` in all other
states (§4.4). -/
def get_final_state (h : HandshakeState) : Option FinalHandshakeState :=
  match h.status with
  | Status.Done final => some final
  | _ => none

/-- The responder state machine holds its handshake by exclusive ownership
(`ResponderStateMachine` in `responder_state_machine.rs`). -/
structure ResponderStateMachine where
  handshake : HandshakeState

/-- `ResponderStateMachine::on_event` (`responder_state_machine.rs`, lines
18-51), embedded statement by statement. The Rust code clones
`self.handshake.state` into the local `state`, dispatches on
`(state.status, event)`, and runs the delegated engine operations, which
mutate `self.handshake`; the `state.status = ...` assignments of the first
two arms hit only the local clone, which is dropped, so they are preserved
here as status-preserving steps. Each `?` propagates the engine error. The
catch-all arm returns `Error::new(Origin::Channel, Kind::Invalid, ...)` and
leaves the machine untouched. -/
def on_event (sm : ResponderStateMachine) (event : Event) :
    Except ErrKind Action × ResponderStateMachine :=
  let state := sm.handshake
  match state.status, event with
  | Status.Initial, Event.Initialize =>
      match initialize_handshake sm.handshake with
      | .error e => (.error e, sm)
      | .ok h1 => (.ok Action.NoAction, { sm with handshake := h1 })
  | Status.WaitingForMessage1, Event.ReceivedMessage message =>
      match decode_message1 sm.handshake message with
      | .error e => (.error e, sm)
      | .ok h1 =>
          match encode_message2 h1 with
          | .error e => (.error e, { sm with handshake := h1 })
          | .ok (h2, message2) => (.ok (Action.SendMessage message2), { sm with handshake := h2 })
  | Status.WaitingForMessage3, Event.ReceivedMessage message =>
      match decode_message3 sm.handshake message with
      | .error e => (.error e, sm)
      | .ok (h1, identity_and_credential) =>
          match verify_identity_instr h1 identity_and_credential with
          | (Except.error e, consulted) =>
              (.error e,
                { sm with handshake :=
                  { h1 with policyChecks := h1.policyChecks + (if consulted then 1 else 0) } })
          | (Except.ok their_identity, consulted) =>
              match set_final_state
                  { h1 with policyChecks := h1.policyChecks + (if consulted then 1 else 0) }
                  their_identity Role.Responder with
              | .error e =>
                  (.error e,
                    { sm with handshake :=
                      { h1 with
                        policyChecks := h1.policyChecks + (if consulted then 1 else 0) } })
              | .ok h3 => (.ok Action.NoAction, { sm with handshake := h3 })
  | _, _ => (.error ErrKind.Invalid, sm)

/-- `ResponderStateMachine::get_final_state`, delegated to the handshake. -/
def ResponderStateMachine.get_final_state (sm : ResponderStateMachine) :
    Option FinalHandshakeState :=
  Ockam.get_final_state sm.handshake

/-- `ResponderStateMachine::new`: a fresh machine in the `Initial` status
with an untouched engine; the vault, identities and local
identity/credential material are abstracted away, the trust policy, trust
context and handshake time are the caller-supplied configuration (§6). -/
def ResponderStateMachine.new (trust_policy : Identity → Bool)
    (trust_context : Option TrustContext) (now k1 k2 : Nat) : ResponderStateMachine :=
  ⟨⟨Status.Initial, EngineStep.created, k1, k2, trust_policy, trust_context, now, 0⟩⟩

/-- Sequential delivery of a list of events to the machine (§5: events are
strictly sequential per attempt). -/
def processEvents (sm : ResponderStateMachine) (events : List Event) : ResponderStateMachine :=
  events.foldl (fun s e => (on_event s e).2) sm

/-- The (state, event) pairs listed in the responder's transition table
(§4.4). -/
def inTable : Status → Event → Bool
  | Status.Initial, Event.Initialize => true
  | Status.WaitingForMessage1, Event.ReceivedMessage _ => true
  | Status.WaitingForMessage3, Event.ReceivedMessage _ => true
  | _, _ => false

/-- Upper bound on how many trust-policy consultations this machine can
still accumulate: the ghost count so far, plus one while the engine has not
yet consumed message 3. -/
def policyPotential (h : HandshakeState) : Nat :=
  h.policyChecks + (if h.step = EngineStep.receivedM3 then 0 else 1)

theorem i64_u64_roundtrip (n : Nat) (h : n < 2 ^ 64) :
    i64_as_u64 (u64_as_i64 n) = n := by
  unfold u64_as_i64 i64_as_u64
  split <;> omega

theorem find_default_helper (identifier : Identifier) (l : List IdentityRow)
    (h : ∃ r ∈ l, r.identifier = identifier) :
    (((l.map fun r =>
          if r.identifier = identifier then { r with is_default := true } else r).map
        fun r =>
          if r.identifier ≠ identifier then { r with is_default := false } else r).find?
      fun r => r.is_default).map (fun r => r.identifier) = some identifier := by
  induction l with
  | nil => simp at h
  | cons a l ih =>
    by_cases ha : a.identifier = identifier
    · simp [List.find?, ha]
    · obtain ⟨r, hr, hrid⟩ := h
      rcases List.mem_cons.mp hr with h0 | h0
      · exact absurd (h0 ▸ hrid) ha
      · simpa [List.find?, ha] using ih ⟨r, h0, hrid⟩

/-- C9: after `set_as_default identifier` on a repository that contains the
identifier, the identifier's rows are marked default, every other row is
marked non-default, and `get_default_identifier` returns the identifier. -/
theorem set_as_default_then_get_default (db : Db) (identifier : Identifier)
    (h : ∃ r ∈ db.identity, r.identifier = identifier) :
    (∀ r ∈ (db.set_as_default identifier).identity,
        r.is_default = decide (r.identifier = identifier)) ∧
    (db.set_as_default identifier).get_default_identifier = some identifier := by
  constructor
  · intro r hr
    simp only [Db.set_as_default, List.map_map, List.mem_map, Function.comp] at hr
    obtain ⟨r0, _, hr0⟩ := hr
    subst hr0
    by_cases hid : r0.identifier = identifier
    · simp [hid]
    · simp [hid]
  · simpa only [Db.set_as_default, Db.get_default_identifier] using
      find_default_helper identifier db.identity h

/-- C9 witness. -/
theorem set_as_default_then_get_default_witness :
    (∀ r ∈ ((Db.mk [⟨⟨1⟩, ⟨[]⟩, none, false⟩, ⟨⟨2⟩, ⟨[]⟩, none, true⟩] []).set_as_default
        ⟨2⟩).identity, r.is_default = decide (r.identifier = ⟨2⟩)) ∧
    ((Db.mk [⟨⟨1⟩, ⟨[]⟩, none, false⟩, ⟨⟨2⟩, ⟨[]⟩, none, true⟩] []).set_as_default
        ⟨2⟩).get_default_identifier = some ⟨2⟩ :=
  set_as_default_then_get_default _ ⟨2⟩ ⟨⟨⟨2⟩, ⟨[]⟩, none, true⟩, by decide, rfl⟩

/-- C10: for timestamps that fit in a signed 64-bit integer, `put_attributes`
followed by `get_attributes` for the same identifier returns an entry equal
to the stored one: the row encoding round-trips attributes, added, expires
and attested_by. -/
theorem find_filter_append_helper (key : Identifier) (row : IdentityAttributesRow)
    (rows : List IdentityAttributesRow) (hk : row.identifier = key) :
    ((rows.filter fun r => ¬ r.identifier = key) ++ [row]).find?
      (fun r => r.identifier = key) = some row := by
  induction rows with
  | nil => simp [List.find?, hk]
  | cons a l ih =>
    by_cases ha : a.identifier = key
    · simpa [List.filter_cons, ha] using ih
    · simpa [List.filter_cons, List.find?, ha] using ih

/-- C10: for timestamps that fit in a signed 64-bit integer, `put_attributes`
followed by `get_attributes` for the same identifier returns an entry equal
to the stored one: the row encoding round-trips attributes, added, expires
and attested_by. -/
theorem put_attributes_get_attributes_roundtrip (db : Db) (identifier : Identifier)
    (entry : AttributesEntry) (hadded : entry.added < 2 ^ 63)
    (hexp : ∀ e ∈ entry.expires, e < 2 ^ 63) :
    (db.put_attributes identifier entry).get_attributes identifier = some entry := by
  simp only [Db.put_attributes, Db.get_attributes, insertOrReplace]
  rw [find_filter_append_helper identifier _ _ rfl]
  obtain ⟨attrs, added, expires, attested_by⟩ := entry
  simp only [AttributesEntry.added] at hadded
  cases expires with
  | none =>
      simp [IdentityAttributesRow.attributesEntry, i64_u64_roundtrip added (by omega)]
  | some e =>
      have he : e < 2 ^ 63 := hexp e (by simp)
      simp [IdentityAttributesRow.attributesEntry, i64_u64_roundtrip added (by omega),
        i64_u64_roundtrip e (by omega)]

/-- C10 witness. -/
theorem put_attributes_get_attributes_roundtrip_witness :
    ((Db.mk [] []).put_attributes ⟨5⟩
        ⟨[([1], [2])], 1000, some 2000, some ⟨5⟩⟩).get_attributes ⟨5⟩ =
      some ⟨[([1], [2])], 1000, some 2000, some ⟨5⟩⟩ :=
  put_attributes_get_attributes_roundtrip _ _ _ (by decide)
    (by intro e he; simp at he; omega)

/-- C1: the responder state table (§4.4) says processing Initialize in
Initial moves the machine to WaitingForMessage1. Evaluating the code on a
fresh machine: on_event returns Ok(NoAction) but the machine's status is
still Initial afterwards — the arm assigns the new status to a local clone
of the state which is then dropped — so the subsequent message 1 is
rejected with an Invalid error instead of producing message 2. -/
theorem responder_initialize_loses_transition :
    ((on_event (ResponderStateMachine.new (fun _ => true) none 0 1 2) Event.Initialize).1 =
        Except.ok Action.NoAction) ∧
    ((on_event (ResponderStateMachine.new (fun _ => true) none 0 1 2)
        Event.Initialize).2.handshake.status = Status.Initial) ∧
    ((on_event ((on_event (ResponderStateMachine.new (fun _ => true) none 0 1 2)
        Event.Initialize).2) (Event.ReceivedMessage Message.msg1)).1 =
      Except.error ErrKind.Invalid) :=
  ⟨rfl, rfl, rfl⟩

/-- C3: for every (state, event) pair not listed in the responder's
transition table, on_event returns an error of kind Invalid and the machine
is unchanged. -/
theorem unlisted_pair_invalid_unchanged (sm : ResponderStateMachine) (e : Event)
    (h : inTable sm.handshake.status e = false) :
    on_event sm e = (Except.error ErrKind.Invalid, sm) := by
  obtain ⟨⟨st, step, k1, k2, tp, tc, now, pc⟩⟩ := sm
  cases st <;> cases e <;> simp_all [inTable, on_event]

/-- C3 witness. -/
theorem unlisted_pair_invalid_unchanged_witness :
    on_event (ResponderStateMachine.new (fun _ => true) none 0 1 2)
        (Event.ReceivedMessage Message.msg1) =
      (Except.error ErrKind.Invalid, ResponderStateMachine.new (fun _ => true) none 0 1 2) :=
  unlisted_pair_invalid_unchanged _ _ rfl

/-- C5: get_final_state is none in every state other than Done — on fresh
machines, and unchanged (hence still none) across every on_event call that
returns an error — and can be some only in the Done status. -/
theorem final_state_none_unless_done :
    (∀ h : HandshakeState, (∀ f, h.status ≠ Status.Done f) → get_final_state h = none) ∧
    (∀ (tp : Identity → Bool) (tc : Option TrustContext) (now k1 k2 : Nat),
        (ResponderStateMachine.new tp tc now k1 k2).get_final_state = none) ∧
    (∀ (sm : ResponderStateMachine) (e : Event) (er : ErrKind),
        (on_event sm e).1 = Except.error er →
        Ockam.get_final_state (on_event sm e).2.handshake =
          Ockam.get_final_state sm.handshake) := by
  refine ⟨?_, ?_, ?_⟩
  · intro h hne
    cases hs : h.status <;> simp [get_final_state, hs]
    exact absurd hs (hne _)
  · intro tp tc now k1 k2
    rfl
  · intro sm e er herr
    obtain ⟨⟨st, step, k1, k2, tp, tc, now, pc⟩⟩ := sm
    cases e with
    | Initialize =>
        cases st <;> cases step <;> rfl
    | ReceivedMessage message =>
        cases st with
        | Initial => rfl
        | Done final => rfl
        | WaitingForMessage1 =>
            cases step <;> cases message <;> rfl
        | WaitingForMessage3 =>
            cases step <;> cases message <;>
              first
                | rfl
                | (rename_i payload
                   revert herr
                   simp only [on_event, decode_message3]
                   rcases hv : verify_identity_instr
                       ⟨Status.WaitingForMessage3, EngineStep.receivedM3, k1, k2, tp, tc, now, pc⟩
                       payload with ⟨res, c⟩
                   cases res <;> simp [hv, get_final_state, set_final_state])

/-- C5 witness. -/
theorem final_state_none_unless_done_witness :
    Ockam.get_final_state
        (on_event (ResponderStateMachine.new (fun _ => true) none 0 1 2)
          (Event.ReceivedMessage Message.msg2)).2.handshake =
      Ockam.get_final_state (ResponderStateMachine.new (fun _ => true) none 0 1 2).handshake :=
  final_state_none_unless_done.2.2 _ _ ErrKind.Invalid rfl

/-- C2: once a machine has successfully processed a message's bytes through
on_event, delivering the same message bytes to it again returns an Invalid
protocol error, never a silent second success. -/
theorem second_delivery_fails_invalid (sm : ResponderStateMachine) (m : Message) (a : Action)
    (h : (on_event sm (Event.ReceivedMessage m)).1 = Except.ok a) :
    (on_event (on_event sm (Event.ReceivedMessage m)).2 (Event.ReceivedMessage m)).1 =
      Except.error ErrKind.Invalid := by
  obtain ⟨⟨st, step, k1, k2, tp, tc, now, pc⟩⟩ := sm
  cases st with
  | Initial => rfl
  | Done final => rfl
  | WaitingForMessage1 => cases step <;> cases m <;> rfl
  | WaitingForMessage3 =>
      cases step <;> cases m <;>
        first
          | rfl
          | (rename_i payload
             simp only [on_event, decode_message3]
             rcases hv : verify_identity_instr
                 ⟨Status.WaitingForMessage3, EngineStep.receivedM3, k1, k2, tp, tc, now, pc⟩
                 payload with ⟨res, c⟩
             cases res <;>
               simp [hv, set_final_state, on_event, decode_message3])

/-- C2 witness: a machine that has processed message 1 rejects its second
delivery with Invalid. -/
theorem second_delivery_fails_invalid_witness :
    (on_event
        (on_event
          ⟨⟨Status.WaitingForMessage1, EngineStep.initialized, 1, 2, fun _ => true, none, 0, 0⟩⟩
          (Event.ReceivedMessage Message.msg1)).2
        (Event.ReceivedMessage Message.msg1)).1 =
      Except.error ErrKind.Invalid :=
  second_delivery_fails_invalid _ _ (Action.SendMessage Message.msg2) rfl

/-- C4: the responder's terminal transition decodes message 3, verifies the
decoded payload, and reaches the final state only when both succeeded; on
any failure the error is returned, the status stays WaitingForMessage3 and
no final state is retrievable. -/
theorem responder_terminal_transition (sm : ResponderStateMachine) (m : Message)
    (hst : sm.handshake.status = Status.WaitingForMessage3) :
    (∀ er, decode_message3 sm.handshake m = Except.error er →
        on_event sm (Event.ReceivedMessage m) = (Except.error er, sm)) ∧
    (∀ h1 p er, decode_message3 sm.handshake m = Except.ok (h1, p) →
        (verify_identity_instr h1 p).1 = Except.error er →
        (on_event sm (Event.ReceivedMessage m)).1 = Except.error er ∧
        (on_event sm (Event.ReceivedMessage m)).2.handshake.status =
          Status.WaitingForMessage3 ∧
        Ockam.get_final_state (on_event sm (Event.ReceivedMessage m)).2.handshake = none) ∧
    (∀ h1 p their c, decode_message3 sm.handshake m = Except.ok (h1, p) →
        verify_identity_instr h1 p = (Except.ok their, c) →
        on_event sm (Event.ReceivedMessage m) =
          (Except.ok Action.NoAction,
            { sm with handshake :=
              { h1 with
                policyChecks := h1.policyChecks + (if c then 1 else 0),
                status := Status.Done ⟨h1.k2, h1.k1, their, Role.Responder⟩ } })) := by
  obtain ⟨⟨st, step, k1, k2, tp, tc, now, pc⟩⟩ := sm
  simp only at hst
  subst hst
  refine ⟨?_, ?_, ?_⟩
  · intro er hdec
    cases step <;> cases m <;> simp_all [on_event, decode_message3]
  · intro h1 p er hdec hv
    cases step <;> cases m <;>
      try (simp [decode_message3] at hdec)
    rename_i payload
    obtain ⟨h1eq, peq⟩ := hdec
    subst h1eq
    subst peq
    simp only [on_event, decode_message3]
    rcases hres : verify_identity_instr
        ⟨Status.WaitingForMessage3, EngineStep.receivedM3, k1, k2, tp, tc, now, pc⟩
        payload with ⟨res, c⟩
    rw [hres] at hv
    simp only at hv
    subst hv
    simp [hres, get_final_state]
  · intro h1 p their c hdec hv
    cases step <;> cases m <;>
      try (simp [decode_message3] at hdec)
    rename_i payload
    obtain ⟨h1eq, peq⟩ := hdec
    subst h1eq
    subst peq
    simp [on_event, decode_message3, hv, set_final_state]

/-- C4 witness: a successful terminal transition reaches Done with the
verified identity. -/
theorem responder_terminal_transition_witness :
    on_event
        ⟨⟨Status.WaitingForMessage3, EngineStep.sentM2, 1, 2, fun _ => true, none, 7, 0⟩⟩
        (Event.ReceivedMessage (Message.msg3 ⟨⟨[⟨9, true⟩]⟩, []⟩)) =
      (Except.ok Action.NoAction,
        ⟨⟨Status.Done ⟨2, 1, ⟨⟨9⟩, ⟨[⟨9, true⟩]⟩⟩, Role.Responder⟩,
          EngineStep.receivedM3, 1, 2, fun _ => true, none, 7, 1⟩⟩) :=
  (responder_terminal_transition
      ⟨⟨Status.WaitingForMessage3, EngineStep.sentM2, 1, 2, fun _ => true, none, 7, 0⟩⟩
      (Message.msg3 ⟨⟨[⟨9, true⟩]⟩, []⟩) rfl).2.2
    _ _ ⟨⟨9⟩, ⟨[⟨9, true⟩]⟩⟩ true rfl rfl

theorem policyPotential_step (sm : ResponderStateMachine) (e : Event) :
    policyPotential (on_event sm e).2.handshake ≤ policyPotential sm.handshake := by
  obtain ⟨⟨st, step, k1, k2, tp, tc, now, pc⟩⟩ := sm
  cases e with
  | Initialize =>
      cases st <;> cases step <;>
        simp [on_event, initialize_handshake, policyPotential]
  | ReceivedMessage message =>
      cases st with
      | Initial => exact Nat.le_refl _
      | Done final => exact Nat.le_refl _
      | WaitingForMessage1 =>
          cases step <;> cases message <;>
            simp [on_event, decode_message1, encode_message2, policyPotential]
      | WaitingForMessage3 =>
          cases step <;> cases message <;>
            first
              | (simp [on_event, decode_message3, policyPotential]
                 done)
              | (rename_i payload
                 simp only [on_event, decode_message3]
                 rcases hres : verify_identity_instr
                     ⟨Status.WaitingForMessage3, EngineStep.receivedM3, k1, k2, tp, tc, now, pc⟩
                     payload with ⟨res, c⟩
                 cases res <;> cases c <;>
                   simp [hres, set_final_state, policyPotential])

theorem policyPotential_run (events : List Event) (sm : ResponderStateMachine) :
    policyPotential (processEvents sm events).handshake ≤ policyPotential sm.handshake := by
  induction events generalizing sm with
  | nil => exact Nat.le_refl _
  | cons e rest ih =>
      exact Nat.le_trans (ih (on_event sm e).2) (policyPotential_step sm e)

/-- C6: verify_identity validates the change history, then the credentials,
then consults the trust policy, returning the first error encountered; the
policy is consulted only when history and credential verification have
succeeded, and at most once over any event sequence delivered to a
handshake attempt. -/
theorem verify_identity_order_and_policy_once :
    (∀ (h : HandshakeState) (p : IdentityAndCredentials) (er : ErrKind),
        verify_change_history p.change_history = Except.error er →
        verify_identity_instr h p = (Except.error er, false)) ∧
    (∀ (h : HandshakeState) (p : IdentityAndCredentials) (ident : Identity) (er : ErrKind),
        verify_change_history p.change_history = Except.ok ident →
        checkCredentials p.credentials ident.identifier h.trust_context h.now =
          Except.error er →
        verify_identity_instr h p = (Except.error er, false)) ∧
    (∀ (h : HandshakeState) (p : IdentityAndCredentials) (ident : Identity),
        verify_change_history p.change_history = Except.ok ident →
        checkCredentials p.credentials ident.identifier h.trust_context h.now =
          Except.ok () →
        verify_identity_instr h p =
          (if h.trust_policy ident then (Except.ok ident, true)
           else (Except.error ErrKind.AuthorizationFailed, true))) ∧
    (∀ (h : HandshakeState) (p : IdentityAndCredentials),
        (verify_identity_instr h p).2 = true →
        ∃ ident, verify_change_history p.change_history = Except.ok ident ∧
          checkCredentials p.credentials ident.identifier h.trust_context h.now =
            Except.ok ()) ∧
    (∀ (sm : ResponderStateMachine) (events : List Event),
        policyPotential sm.handshake ≤ 1 →
        (processEvents sm events).handshake.policyChecks ≤ 1) := by
  refine ⟨?_, ?_, ?_, ?_, ?_⟩
  · intro h p er hch
    simp [verify_identity_instr, hch]
  · intro h p ident er hch hcc
    simp [verify_identity_instr, hch, hcc]
  · intro h p ident hch hcc
    by_cases hpol : h.trust_policy ident <;>
      simp [verify_identity_instr, hch, hcc, hpol]
  · intro h p
    unfold verify_identity_instr
    cases hch : verify_change_history p.change_history with
    | error e => simp
    | ok ident =>
        cases hcc : checkCredentials p.credentials ident.identifier h.trust_context h.now with
        | error e => simp [hcc]
        | ok u =>
            cases u
            simp only [hcc]
            intro _
            refine ⟨ident, ?_, ?_⟩ <;> simp [hch, hcc]
  · intro sm events hpot
    have h1 := policyPotential_run events sm
    have h2 : (processEvents sm events).handshake.policyChecks ≤
        policyPotential (processEvents sm events).handshake := Nat.le_add_right _ _
    omega

/-- C6 witness. -/
theorem verify_identity_order_and_policy_once_witness :
    (processEvents (ResponderStateMachine.new (fun _ => true) none 0 1 2)
        [Event.Initialize, Event.ReceivedMessage Message.msg1]).handshake.policyChecks ≤ 1 :=
  verify_identity_order_and_policy_once.2.2.2.2 _ _ (by decide)

theorem checkCredentials_mem_error (credentials : List Credential) (subject : Identifier)
    (trust_context : Option TrustContext) (now : Nat) (c : Credential) (er : ErrKind)
    (hmem : c ∈ credentials)
    (hc : verify_credential c subject trust_context now = Except.error er) :
    ∃ er', checkCredentials credentials subject trust_context now = Except.error er' := by
  induction credentials with
  | nil => simp at hmem
  | cons a rest ih =>
      rcases List.mem_cons.mp hmem with rfl | hmem'
      · exact ⟨er, by simp [checkCredentials, hc]⟩
      · cases hva : verify_credential a subject trust_context now with
        | error e => exact ⟨e, by simp [checkCredentials, hva]⟩
        | ok x =>
            obtain ⟨er', her'⟩ := ih hmem'
            exact ⟨er', by simp [checkCredentials, hva, her']⟩

/-- C7: a credential whose subject differs from the authenticated identity
is rejected with SubjectMismatch whatever its signature verdict; a payload
carrying only such a credential makes verify_identity fail with
SubjectMismatch, and any payload containing one cannot verify. -/
theorem credential_subject_mismatch (credential : Credential) (subject : Identifier)
    (trust_context : Option TrustContext) (now : Nat)
    (h : credential.subject ≠ subject) :
    verify_credential credential subject trust_context now =
      Except.error ErrKind.SubjectMismatch ∧
    (∀ (hs : HandshakeState) (p : IdentityAndCredentials) (ident : Identity),
        verify_change_history p.change_history = Except.ok ident →
        ident.identifier = subject →
        p.credentials = [credential] →
        verify_identity hs p = Except.error ErrKind.SubjectMismatch) ∧
    (∀ (hs : HandshakeState) (p : IdentityAndCredentials) (ident : Identity),
        verify_change_history p.change_history = Except.ok ident →
        ident.identifier = subject →
        credential ∈ p.credentials →
        ∃ er', verify_identity hs p = Except.error er') := by
  have hvc : ∀ (tc : Option TrustContext) (n : Nat),
      verify_credential credential subject tc n = Except.error ErrKind.SubjectMismatch := by
    intro tc n
    unfold verify_credential
    simp [h]
  refine ⟨hvc trust_context now, ?_, ?_⟩
  · intro hs p ident hch hid hcreds
    simp [verify_identity, verify_identity_instr, hch, hcreds, checkCredentials, hid,
      hvc hs.trust_context hs.now]
  · intro hs p ident hch hid hmem
    obtain ⟨er', her'⟩ :=
      checkCredentials_mem_error p.credentials subject hs.trust_context hs.now credential
        ErrKind.SubjectMismatch hmem (hvc hs.trust_context hs.now)
    refine ⟨er', ?_⟩
    simp [verify_identity, verify_identity_instr, hch, hid, her']

/-- C7 witness: a valid-signature credential for subject 3 presented on a
handshake that authenticated identity 9. -/
theorem credential_subject_mismatch_witness :
    verify_credential ⟨⟨3⟩, ⟨4⟩, [], 0, none, true⟩ ⟨9⟩ none 0 =
      Except.error ErrKind.SubjectMismatch :=
  (credential_subject_mismatch ⟨⟨3⟩, ⟨4⟩, [], 0, none, true⟩ ⟨9⟩ none 0 (by decide)).1

/-- C8: a credential whose expiry is strictly before the handshake's notion
of now never verifies, whatever its signature verdict, and (for the subject
bound by the handshake) the error is Expired. -/
theorem credential_expired (credential : Credential) (subject : Identifier)
    (trust_context : Option TrustContext) (now e : Nat)
    (hexp : credential.expires = some e) (hlt : e < now) :
    (∀ a, verify_credential credential subject trust_context now ≠ Except.ok a) ∧
    (credential.subject = subject →
      verify_credential credential subject trust_context now =
        Except.error ErrKind.Expired) := by
  constructor
  · intro a
    unfold verify_credential
    by_cases hs : credential.subject = subject
    · simp [hs, hexp, hlt]
    · simp [hs]
  · intro hsub
    unfold verify_credential
    simp [hsub, hexp, hlt]

/-- C8 witness: an expired credential with a valid signature and matching
subject is rejected as Expired. -/
theorem credential_expired_witness :
    verify_credential ⟨⟨3⟩, ⟨4⟩, [], 0, some 5, true⟩ ⟨3⟩ none 10 =
      Except.error ErrKind.Expired :=
  (credential_expired ⟨⟨3⟩, ⟨4⟩, [], 0, some 5, true⟩ ⟨3⟩ none 10 5 rfl (by decide)).2 rfl

end Ockam
